import Mathlib

/-!
Verification of the patient-dashboard core (src/app.py): dataset ID
validation, the MADRS / PID-5 / PHQ-9 score aggregators, the nurse-note
store, and the patient-ID sort key.  Tabular data is embedded shallowly:
a cell is `Option Value` (`none` models a missing value / NaN), a row is
an association list from column names to cells, and a data frame is a
column list together with its rows.
-/

namespace PatientApp

/-- A scalar value held in a table cell: either text or an integer. -/
inductive Value where
  | str : String → Value
  | int : Int → Value
deriving DecidableEq

/-- A cell of the table; `none` models a missing value (NaN). -/
abbrev Cell := Option Value

/-- A row: an association list from column names to cells. -/
abbrev Row := List (String × Cell)

/-- Look a label up in a row; `none` means the label is absent. -/
def lookupCell : Row → String → Option Cell
  | [], _ => none
  | p :: rest, l => if p.1 = l then some p.2 else lookupCell rest l

/-- The cell stored at a label, with an absent label read as a missing
value (in a well-formed frame every row carries every column). -/
def seriesCell (r : Row) (l : String) : Cell :=
  (lookupCell r l).join

/-- A data frame: the column names and the rows. -/
structure DataFrame where
  columns : List String
  rows : List Row
deriving DecidableEq

/-- The `ID` column of a frame, as read on line 88 of src/app.py. -/
def idColumn (df : DataFrame) : List Cell :=
  df.rows.map (fun r => seriesCell r "ID")

/-- `l.duplicated().any()`: does the list hold a repeated element? -/
def hasDup {α : Type} [DecidableEq α] : List α → Bool
  | [] => false
  | x :: xs => decide (x ∈ xs) || hasDup xs

/-- Outcome of the module-level ID validation. -/
inductive IdCheck where
  | missingCol
  | nullEntry
  | dupEntry
  | ok
deriving DecidableEq

/-- The module-level ID validation of src/app.py (lines 84-94): halt with
an error if the `ID` column is absent, else if some entry is null, else
if some entry is duplicated; otherwise the dataset is accepted. -/
def check_id_column (df : DataFrame) : IdCheck :=
  if "ID" ∈ df.columns then
    if (idColumn df).any (fun c => c.isNone) then .nullEntry
    else if hasDup (idColumn df) then .dupEntry
    else .ok
  else .missingCol

/-- Read the integer in a cell of a row; a missing label, a missing
value, or a non-numeric value all count as missing for that cell. -/
def cellInt (r : Row) (c : String) : Option Int :=
  match seriesCell r c with
  | some (Value.int n) => some n
  | _ => none

/-- The PID-5 dimension-to-item table of src/app.py (lines 111-117). -/
def pid5_dimensions_mapping : List (String × List Nat) :=
  [("Affect Négatif", [8, 9, 10, 11, 15]),
   ("Détachement", [4, 13, 14, 16, 18]),
   ("Antagonisme", [17, 19, 20, 22, 25]),
   ("Désinhibition", [1, 2, 3, 5, 6]),
   ("Psychoticisme", [7, 12, 21, 23, 24])]

/-- The baseline column name of a PID-5 item. -/
def pid5_bl_col (i : Nat) : String := "pid5_" ++ toString i ++ "_bl"

/-- The follow-up column name of a PID-5 item. -/
def pid5_fu_col (i : Nat) : String := "pid5_" ++ toString i ++ "_fu"

/-- All PID-5 columns the aggregator requires: the baseline columns of
every dimension followed by the follow-up columns (lines 334-338). -/
def pid5_required_columns : List String :=
  (pid5_dimensions_mapping.flatMap fun d => d.2.map pid5_bl_col) ++
    (pid5_dimensions_mapping.flatMap fun d => d.2.map pid5_fu_col)

/-- `patient_data[cols].sum()`: sum of the selected cells, skipping
missing values (each contributes 0). -/
def rowSum (r : Row) (cs : List String) : Int :=
  (cs.map (fun c => (cellInt r c).getD 0)).sum

/-- The PID-5 aggregator (lines 332-349 and 484-498): if every required
column is in the dataset schema, the per-dimension baseline and
follow-up sums; otherwise `none` ("Données PID-5 incomplètes"). -/
def pid5_scores (cols : List String) (r : Row) :
    Option (List (String × Int × Int)) :=
  if pid5_required_columns.all (fun c => decide (c ∈ cols)) then
    some (pid5_dimensions_mapping.map fun d =>
      (d.1, rowSum r (d.2.map pid5_bl_col), rowSum r (d.2.map pid5_fu_col)))
  else none

/-- The PHQ-9 checkpoint days (line 391). -/
def phq9_days : List Nat := [5, 10, 15, 20, 25, 30]

/-- The nine item columns of one PHQ-9 day (line 395). -/
def phq9_item_cols (day : Nat) : List String :=
  (List.range 9).map (fun i => "phq9_day" ++ toString day ++ "_item" ++ toString (i + 1))

/-- The day loop of lines 394-400: it stops at the first day whose nine
columns are not all in the schema, and the whole series is then
reported unavailable (`none`). -/
def phq9_loop (cols : List String) (r : Row) : List Nat → Option (List (String × Int))
  | [] => some []
  | day :: rest =>
    if (phq9_item_cols day).all (fun c => decide (c ∈ cols)) then
      match phq9_loop cols r rest with
      | some scores => some (("Jour " ++ toString day, rowSum r (phq9_item_cols day)) :: scores)
      | none => none
    else none

/-- The PHQ-9 progression (lines 389-403): one score per checkpoint day,
or `none` when the columns of some day are incomplete. -/
def phq9_scores (cols : List String) (r : Row) : Option (List (String × Int)) :=
  phq9_loop cols r phq9_days

/-- `patient_data.get(label, default)`: the stored cell when the label is
present (even when its value is missing), the default otherwise. -/
def seriesGetD (r : Row) (l : String) (d : Cell) : Cell :=
  match lookupCell r l with
  | some c => c
  | none => d

/-- The MADRS total of lines 282-285: the two scalar columns, an absent
column defaulting to the integer 0. -/
def madrs_total (r : Row) : Cell × Cell :=
  (seriesGetD r "madrs_score_bl" (some (Value.int 0)),
   seriesGetD r "madrs_score_fu" (some (Value.int 0)))

/-- A concrete row for the PID-5 example: every required column present,
the Negative Affectivity baseline items of patient P3 are 2, 1, 0, 3, 1, all
other items 0. -/
def pid5_example_value (c : String) : Int :=
  if c = "pid5_8_bl" then 2
  else if c = "pid5_9_bl" then 1
  else if c = "pid5_10_bl" then 0
  else if c = "pid5_11_bl" then 3
  else if c = "pid5_15_bl" then 1
  else 0

/-- The example row itself: one cell per required PID-5 column. -/
def pid5_example_row : Row :=
  pid5_required_columns.map (fun c => (c, some (Value.int (pid5_example_value c))))

/-- A row whose schema is complete but whose `pid5_8_bl` cell is missing;
every other required cell holds 1. -/
def pid5_gap_row : Row :=
  pid5_required_columns.map
    (fun c => (c, if c = "pid5_8_bl" then none else some (Value.int 1)))

/-- The nurse-note backing table: the rows of the tabular store. -/
abbrev Table := List Row

/-- Overwrite the cell at a label in a row, appending it when absent. -/
def rowSet : Row → String → Cell → Row
  | [], l, v => [(l, v)]
  | p :: rest, l, v => if p.1 = l then (l, v) :: rest else p :: rowSet rest l v

/-- `nurse_data["ID"] == patient_id` for one row: does its `ID` cell hold
exactly this identifier? -/
def rowHasId (r : Row) (pid : String) : Bool :=
  decide (lookupCell r "ID" = some (some (Value.str pid)))

/-- One note field as returned by `load_nurse_inputs`: the stored value,
with a missing value normalised to the empty string (`fillna("")`). -/
def noteField (r : Row) (l : String) : Value :=
  match seriesCell r l with
  | some v => v
  | none => Value.str ""

/-- `load_nurse_inputs` (src/app.py lines 144-160): the three note fields
of the first row bearing the identifier, all-empty when no row does. -/
def load_nurse_inputs (tbl : Table) (pid : String) : Value × Value × Value :=
  match tbl.find? (fun r => rowHasId r pid) with
  | some r => (noteField r "objectives", noteField r "tasks", noteField r "comments")
  | none => (Value.str "", Value.str "", Value.str "")

/-- The `.loc` assignment of line 173: set the three note fields. -/
def setNotes (r : Row) (o t c : String) : Row :=
  rowSet (rowSet (rowSet r "objectives" (some (Value.str o)))
    "tasks" (some (Value.str t))) "comments" (some (Value.str c))

/-- The row appended by line 175-176 for an unknown identifier. -/
def newNoteRow (pid o t c : String) : Row :=
  [("ID", some (Value.str pid)), ("objectives", some (Value.str o)),
   ("tasks", some (Value.str t)), ("comments", some (Value.str c))]

/-- `save_nurse_inputs` (lines 163-177): if some row bears the
identifier, overwrite the three note fields of every such row; otherwise
append a fresh row holding only the identifier and the three fields. -/
def save_nurse_inputs (tbl : Table) (pid o t c : String) : Table :=
  if tbl.any (fun r => rowHasId r pid) then
    tbl.map (fun r => if rowHasId r pid then setNotes r o t c else r)
  else
    tbl ++ [newNoteRow pid o t c]

/-- The leftmost maximal run of digit characters, as found by
`re.search(r"\d+", id_str)` (line 125). -/
def firstDigitRun : List Char → Option (List Char)
  | [] => none
  | c :: cs =>
    if c.isDigit then some (c :: cs.takeWhile Char.isDigit) else firstDigitRun cs

/-- Digit characters read as a decimal number (`int(match.group())`). -/
def natOfDigits (l : List Char) : Nat :=
  l.foldl (fun acc c => 10 * acc + (c.toNat - Char.toNat '0')) 0

/-- `extract_number` (lines 124-126): the first embedded integer of the
identifier, `⊤` (the float infinity of line 126) when it holds no digit. -/
def extract_number (s : String) : WithTop Nat :=
  match firstDigitRun s.data with
  | some ds => (natOfDigits ds : Nat)
  | none => ⊤

/-- The key comparison induced by `key=extract_number`. -/
def idLE (a b : String) : Bool := decide (extract_number a ≤ extract_number b)

/-- `sorted(final_data["ID"].unique(), key=extract_number)` (line 137):
a stable merge sort ascending by the extracted key. -/
def sortPatients (ids : List String) : List String := ids.mergeSort idLE

/-- The ten MADRS item labels (src/app.py lines 97-108). -/
def madrs_items_mapping (n : Nat) : Option String :=
  match n with
  | 1 => some "Tristesse Apparente"
  | 2 => some "Tristesse Signalée"
  | 3 => some "Tension Intérieure"
  | 4 => some "Sommeil Réduit"
  | 5 => some "Appétit Réduit"
  | 6 => some "Difficultés de Concentration"
  | 7 => some "Lassitude"
  | 8 => some "Incapacité à Ressentir"
  | 9 => some "Pensées Pessimistes"
  | 10 => some "Pensées Suicidaires"
  | _ => none

/-- The column-selection regex of line 297,
`madrs` then `_` or `.` then digits then `_` or `.` then `bl` or `fu`:
the decomposition into (first separator, digit run, second separator,
phase), when the whole name matches.  The digit run is maximal, exactly
as the greedy backtracking regex matches it: a shorter run would leave a
digit where the second separator must stand. -/
def parse_madrs_col (s : String) : Option (Char × List Char × Char × List Char) :=
  if s.data.take 5 = ['m', 'a', 'd', 'r', 's'] then
    match s.data.drop 5 with
    | c1 :: rest =>
      if c1 = '_' ∨ c1 = '.' then
        match rest.dropWhile Char.isDigit with
        | c2 :: ph =>
          if rest.takeWhile Char.isDigit ≠ [] ∧ (c2 = '_' ∨ c2 = '.') ∧
              (ph = ['b', 'l'] ∨ ph = ['f', 'u']) then
            some (c1, rest.takeWhile Char.isDigit, c2, ph)
          else none
        | [] => none
      else none
    | [] => none
  else none

/-- `patient_data.filter(regex=...)` membership test (line 297). -/
def madrs_filter (s : String) : Bool := (parse_madrs_col s).isSome

/-- `str.extract("_(bl|fu)$")` (line 303): the phase group when the name
ends in `_bl` or `_fu`, missing otherwise. -/
def extract_temps (s : String) : Option String :=
  match s.data.reverse with
  | 'l' :: 'b' :: '_' :: _ => some "bl"
  | 'u' :: 'f' :: '_' :: _ => some "fu"
  | _ => none

/-- The `.map({"bl": ..., "fu": ...})` of line 304. -/
def temps_label (ph : String) : Option String :=
  if ph = "bl" then some "Baseline"
  else if ph = "fu" then some "Jour 30" else none

/-- One attempt of `re.search(r"madrs[_.](\d+)_")` at the head of the
character list (line 305): the digit group when the pattern matches
here. -/
def matchItemAt (l : List Char) : Option (List Char) :=
  if l.take 5 = ['m', 'a', 'd', 'r', 's'] then
    match l.drop 5 with
    | c1 :: rest =>
      if c1 = '_' ∨ c1 = '.' then
        match rest.dropWhile Char.isDigit with
        | c2 :: _ =>
          if c2 = '_' ∧ rest.takeWhile Char.isDigit ≠ [] then
            some (rest.takeWhile Char.isDigit)
          else none
        | [] => none
      else none
    | [] => none
  else none

/-- `re.search` proper: try the pattern at every start position, leftmost
match first. -/
def extract_item_digits : List Char → Option (List Char)
  | [] => none
  | c :: cs =>
    match matchItemAt (c :: cs) with
    | some ds => some ds
    | none => extract_item_digits cs

/-- `str.extract(r"madrs[_.](\d+)_")` followed by `astype(int)`
(line 305), for one column name. -/
def extract_item_num (s : String) : Option Nat :=
  (extract_item_digits s.data).map natOfDigits

/-- One row of the melted MADRS table after the two extractions and the
item mapping: canonical item label, phase label (kept even when
missing), score. -/
structure MadrsTriple where
  item : String
  temps : Option String
  score : Value
deriving DecidableEq

/-- Lines 305-307 for one melted entry: item number from the name, then
the canonical label; `none` models the row dropped by
`dropna(subset=["Item"])` when items 1-10 give the number no label. -/
def madrs_triple (p : String × Value) : Option MadrsTriple :=
  match extract_item_num p.1 with
  | some n =>
    (madrs_items_mapping n).map
      (fun lbl => ⟨lbl, (extract_temps p.1).bind temps_label, p.2⟩)
  | none => none

/-- The MADRS item breakdown (lines 297-310): select the columns matching
the regex, melt and drop missing scores, extract phase and item, map the
item labels.  `Except.error ()` models the exception `.astype(int)`
raises when the item regex matched nothing for some selected column;
`Except.ok []` covers the two "no data" display branches. -/
def madrs_breakdown (r : Row) : Except Unit (List MadrsTriple) :=
  if (r.filter (fun p => madrs_filter p.1)).isEmpty then .ok []
  else if ((r.filter (fun p => madrs_filter p.1)).filterMap
      (fun p => p.2.map (fun v => (p.1, v)))).any
      (fun p => (extract_item_num p.1).isNone) then .error ()
  else .ok (((r.filter (fun p => madrs_filter p.1)).filterMap
      (fun p => p.2.map (fun v => (p.1, v)))).filterMap madrs_triple)

/-- Modelled from the spec, column grammar `madrs_{n}_{bl|fu}`: strictly
parse an underscore-separated MADRS item column name into its item
number and phase suffix. -/
def parse_madrs_underscore (s : String) : Option (Nat × String) :=
  if s.data.take 6 = ['m', 'a', 'd', 'r', 's', '_'] then
    match (s.data.drop 6).dropWhile Char.isDigit with
    | c2 :: ph =>
      if c2 = '_' ∧ (s.data.drop 6).takeWhile Char.isDigit ≠ [] ∧
          (ph = ['b', 'l'] ∨ ph = ['f', 'u']) then
        some (natOfDigits ((s.data.drop 6).takeWhile Char.isDigit), String.mk ph)
      else none
    | [] => none
  else none

/-- The reshaping law of the spec: every underscore-named MADRS item column
with a present score and a mapped item number becomes one
(item, phase, score) triple, Baseline for `bl` and Day 30 for `fu`. -/
def madrs_breakdown_spec (r : Row) : List MadrsTriple :=
  r.filterMap (fun p =>
    match parse_madrs_underscore p.1, p.2 with
    | some (n, ph), some v =>
      (madrs_items_mapping n).map
        (fun lbl => ⟨lbl, some (if ph = "bl" then "Baseline" else "Jour 30"), v⟩)
    | _, _ => none)

end PatientApp

namespace PatientApp

theorem hasDup_iff_not_nodup {α : Type} [DecidableEq α] (l : List α) :
    hasDup l = true ↔ ¬ l.Nodup := by
  induction l with
  | nil => simp [hasDup]
  | cons x xs ih =>
    simp only [hasDup, Bool.or_eq_true, decide_eq_true_eq, ih, List.nodup_cons]
    tauto

/-- C1: the loader rejects a dataset iff the identifier column is absent,
contains a null entry, or contains a duplicate value; otherwise the
dataset is accepted. -/
theorem id_validation_rejects_iff (df : DataFrame) :
    check_id_column df ≠ .ok ↔
      ("ID" ∉ df.columns ∨ (∃ c ∈ idColumn df, c = none) ∨
        ¬ (idColumn df).Nodup) := by
  have hnull_iff : ((idColumn df).any (fun c => c.isNone) = true) ↔
      (∃ c ∈ idColumn df, c = none) := by
    simp [List.any_eq_true, Option.isNone_iff_eq_none]
  have hdup_iff := hasDup_iff_not_nodup (idColumn df)
  unfold check_id_column
  by_cases hcol : "ID" ∈ df.columns <;>
    by_cases hnull : (idColumn df).any (fun c => c.isNone) = true <;>
      by_cases hdup : hasDup (idColumn df) = true <;>
        simp_all

/-- C1 witness: a concrete frame with a duplicate `ID` is rejected, and a
concrete clean frame is accepted. -/
theorem id_validation_rejects_iff_witness :
    (check_id_column
        ⟨["ID"], [[("ID", some (Value.str "P1"))], [("ID", some (Value.str "P1"))]]⟩ ≠ .ok) ∧
      ¬ (check_id_column
        ⟨["ID"], [[("ID", some (Value.str "P1"))], [("ID", some (Value.str "P2"))]]⟩ ≠ .ok) :=
  ⟨(id_validation_rejects_iff _).mpr (by decide),
   fun h => by
    have := (id_validation_rejects_iff
      ⟨["ID"], [[("ID", some (Value.str "P1"))], [("ID", some (Value.str "P2"))]]⟩).mp h
    revert this
    decide⟩

end PatientApp

namespace PatientApp

theorem phq9_loop_eq_none_of_mem (cols : List String) (r : Row) (day : Nat)
    (c : String) (hc : c ∈ phq9_item_cols day) (hnot : c ∉ cols) :
    ∀ days : List Nat, day ∈ days → phq9_loop cols r days = none := by
  intro days
  induction days with
  | nil => intro h; cases h
  | cons d rest ih =>
    intro hmem
    unfold phq9_loop
    rcases List.mem_cons.mp hmem with heq | hmem
    · subst heq
      rw [if_neg]
      intro hall
      exact hnot (by simpa using List.all_eq_true.mp hall c hc)
    · by_cases hch : (phq9_item_cols d).all (fun x => decide (x ∈ cols)) = true
      · rw [if_pos hch, ih hmem]
      · rw [if_neg hch]

theorem rowSum_eq_of_values (r : Row) (items : List Nat) (col : Nat → String)
    (v : String → Int) (hv : ∀ i ∈ items, cellInt r (col i) = some (v (col i))) :
    rowSum r (items.map col) = (items.map (fun i => v (col i))).sum := by
  unfold rowSum
  rw [List.map_map]
  congr 1
  apply List.map_congr_left
  intro i hi
  simp [Function.comp, hv i hi]

theorem rowSum_map (r : Row) (items : List Nat) (col : Nat → String) :
    rowSum r (items.map col) =
      (items.map (fun i => (cellInt r (col i)).getD 0)).sum := by
  unfold rowSum
  rw [List.map_map]
  rfl

end PatientApp

namespace PatientApp

/-- C3: if even one required PID-5 column is missing from the dataset
schema, the aggregator reports "incomplete" (`none`) and produces no
dimension score at all — never a partial sum over the columns that do
exist. -/
theorem pid5_missing_column_incomplete (cols : List String) (r : Row) (c : String)
    (hc : c ∈ pid5_required_columns) (hnot : c ∉ cols) :
    pid5_scores cols r = none := by
  unfold pid5_scores
  rw [if_neg]
  intro hall
  exact hnot (by simpa using List.all_eq_true.mp hall c hc)

/-- C3 witness: with `pid5_8_bl` removed from an otherwise complete
schema, the aggregator yields `none` on the example row. -/
theorem pid5_missing_column_incomplete_witness :
    pid5_scores (pid5_required_columns.filter (fun c => decide (c ≠ "pid5_8_bl")))
      pid5_example_row = none :=
  pid5_missing_column_incomplete _ _ "pid5_8_bl" (by decide) (by decide)

/-- C2: when every required PID-5 column is in the schema and every cell
of the patient row holds a value, the baseline score of each dimension is
the sum of the five baseline item values, and likewise at follow-up. -/
theorem pid5_complete_scores_are_sums (cols : List String) (r : Row)
    (hcols : ∀ c ∈ pid5_required_columns, c ∈ cols)
    (v : String → Int)
    (hv : ∀ c ∈ pid5_required_columns, cellInt r c = some (v c)) :
    pid5_scores cols r =
      some (pid5_dimensions_mapping.map fun d =>
        (d.1, (d.2.map (fun i => v (pid5_bl_col i))).sum,
              (d.2.map (fun i => v (pid5_fu_col i))).sum)) := by
  have hall : pid5_required_columns.all (fun c => decide (c ∈ cols)) = true := by
    rw [List.all_eq_true]
    intro c hcmem
    simpa using hcols c hcmem
  have hmem_bl : ∀ d ∈ pid5_dimensions_mapping, ∀ i ∈ d.2,
      pid5_bl_col i ∈ pid5_required_columns := by
    intro d hd i hi
    exact List.mem_append_left _ (List.mem_flatMap.mpr ⟨d, hd, List.mem_map_of_mem _ hi⟩)
  have hmem_fu : ∀ d ∈ pid5_dimensions_mapping, ∀ i ∈ d.2,
      pid5_fu_col i ∈ pid5_required_columns := by
    intro d hd i hi
    exact List.mem_append_right _ (List.mem_flatMap.mpr ⟨d, hd, List.mem_map_of_mem _ hi⟩)
  unfold pid5_scores
  rw [if_pos hall]
  congr 1
  apply List.map_congr_left
  intro d hd
  have h1 := rowSum_eq_of_values r d.2 pid5_bl_col v
    (fun i hi => hv _ (hmem_bl d hd i hi))
  have h2 := rowSum_eq_of_values r d.2 pid5_fu_col v
    (fun i hi => hv _ (hmem_fu d hd i hi))
  rw [h1, h2]

/-- C2 witness: on the concrete P3 row (items 8, 9, 10, 11, 15 at
baseline holding 2, 1, 0, 3, 1, everything else 0) the Negative
Affectivity baseline score is 7 and all other scores are 0. -/
theorem pid5_complete_scores_are_sums_witness :
    pid5_scores pid5_required_columns pid5_example_row =
      some [("Affect Négatif", 7, 0), ("Détachement", 0, 0), ("Antagonisme", 0, 0),
            ("Désinhibition", 0, 0), ("Psychoticisme", 0, 0)] :=
  (pid5_complete_scores_are_sums pid5_required_columns pid5_example_row
    (fun _ h => h) pid5_example_value (by decide)).trans (by decide)

/-- C10: the PID-5 completeness check inspects the schema only; when all
required columns exist, scores are produced whatever the cells hold,
each missing cell contributing 0 to the dimension sum. -/
theorem pid5_schema_check_only_cells_default_zero (cols : List String) (r : Row)
    (hcols : ∀ c ∈ pid5_required_columns, c ∈ cols) :
    pid5_scores cols r =
      some (pid5_dimensions_mapping.map fun d =>
        (d.1, (d.2.map (fun i => (cellInt r (pid5_bl_col i)).getD 0)).sum,
              (d.2.map (fun i => (cellInt r (pid5_fu_col i)).getD 0)).sum)) := by
  have hall : pid5_required_columns.all (fun c => decide (c ∈ cols)) = true := by
    rw [List.all_eq_true]
    intro c hcmem
    simpa using hcols c hcmem
  unfold pid5_scores
  rw [if_pos hall]
  congr 1

/-- C10 witness: with a complete schema but the `pid5_8_bl` cell missing
(and all other cells 1), scores are still produced and the missing cell
counts as 0: Negative Affectivity baseline is 4, not "incomplete". -/
theorem pid5_schema_check_only_cells_default_zero_witness :
    pid5_scores pid5_required_columns pid5_gap_row =
      some [("Affect Négatif", 4, 5), ("Détachement", 5, 5), ("Antagonisme", 5, 5),
            ("Désinhibition", 5, 5), ("Psychoticisme", 5, 5)] :=
  (pid5_schema_check_only_cells_default_zero pid5_required_columns pid5_gap_row
    (fun _ h => h)).trans (by decide)

/-- C4: if any of the nine item columns of any checkpoint day is missing
from the schema, the whole PHQ-9 series is unavailable (`none`): no
per-day score is produced for any day. -/
theorem phq9_missing_day_no_series (cols : List String) (r : Row) (day : Nat)
    (c : String) (hday : day ∈ phq9_days) (hc : c ∈ phq9_item_cols day)
    (hnot : c ∉ cols) :
    phq9_scores cols r = none :=
  phq9_loop_eq_none_of_mem cols r day c hc hnot phq9_days hday

/-- C4 witness: with every PHQ-9 column present except item 4 of day 15,
the whole series is `none`, even though days 5 and 10 are complete. -/
theorem phq9_missing_day_no_series_witness :
    phq9_scores
      ((phq9_days.flatMap phq9_item_cols).filter (fun c => decide (c ≠ "phq9_day15_item4")))
      [] = none :=
  phq9_missing_day_no_series _ _ 15 "phq9_day15_item4" (by decide) (by decide) (by decide)

/-- C7: the MADRS total reads exactly the two scalar columns
`madrs_score_bl` and `madrs_score_fu`, substituting the integer 0 for an
absent column and computing nothing further; in particular a row with
`madrs_score_bl` absent and `madrs_score_fu` = 18 yields (0, 18). -/
theorem madrs_total_reads_two_columns :
    (∀ r : Row, madrs_total r =
      ((lookupCell r "madrs_score_bl").getD (some (Value.int 0)),
       (lookupCell r "madrs_score_fu").getD (some (Value.int 0)))) ∧
    (∀ r : Row, lookupCell r "madrs_score_bl" = none →
      lookupCell r "madrs_score_fu" = some (some (Value.int 18)) →
      madrs_total r = (some (Value.int 0), some (Value.int 18))) := by
  constructor
  · intro r
    unfold madrs_total seriesGetD
    rcases h1 : lookupCell r "madrs_score_bl" <;>
      rcases h2 : lookupCell r "madrs_score_fu" <;> simp
  · intro r h1 h2
    unfold madrs_total seriesGetD
    rw [h1, h2]

/-- C7 witness: the quoted example, on a concrete one-column row. -/
theorem madrs_total_reads_two_columns_witness :
    madrs_total [("madrs_score_fu", some (Value.int 18))] =
      (some (Value.int 0), some (Value.int 18)) :=
  madrs_total_reads_two_columns.2 _ (by decide) (by decide)

end PatientApp

namespace PatientApp

theorem lookupCell_rowSet (r : Row) (l l' : String) (v : Cell) :
    lookupCell (rowSet r l v) l' = if l = l' then some v else lookupCell r l' := by
  induction r with
  | nil => rfl
  | cons p rest ih =>
    by_cases hp : p.1 = l
    · by_cases h : l = l'
      · simp [rowSet, hp, lookupCell, h]
      · have hne : p.1 ≠ l' := by rw [hp]; exact h
        simp [rowSet, hp, lookupCell, h, hne]
    · by_cases hq : p.1 = l'
      · have hne : l ≠ l' := fun he => hp (he ▸ hq)
        simp [rowSet, hp, lookupCell, hq, hne, Ne.symm hne]
      · simp [rowSet, hp, lookupCell, hq, ih]

end PatientApp

namespace PatientApp

theorem lookupCell_setNotes_objectives (r : Row) (o t c : String) :
    lookupCell (setNotes r o t c) "objectives" = some (some (Value.str o)) := by
  unfold setNotes
  rw [lookupCell_rowSet, lookupCell_rowSet, lookupCell_rowSet]
  simp

theorem lookupCell_setNotes_tasks (r : Row) (o t c : String) :
    lookupCell (setNotes r o t c) "tasks" = some (some (Value.str t)) := by
  unfold setNotes
  rw [lookupCell_rowSet, lookupCell_rowSet]
  simp

theorem lookupCell_setNotes_comments (r : Row) (o t c : String) :
    lookupCell (setNotes r o t c) "comments" = some (some (Value.str c)) := by
  unfold setNotes
  rw [lookupCell_rowSet]
  simp

theorem lookupCell_setNotes_other (r : Row) (o t c : String) (l : String)
    (h1 : l ≠ "objectives") (h2 : l ≠ "tasks") (h3 : l ≠ "comments") :
    lookupCell (setNotes r o t c) l = lookupCell r l := by
  unfold setNotes
  rw [lookupCell_rowSet, lookupCell_rowSet, lookupCell_rowSet,
    if_neg (Ne.symm h3), if_neg (Ne.symm h2), if_neg (Ne.symm h1)]

theorem rowHasId_setNotes (r : Row) (pid o t c : String) :
    rowHasId (setNotes r o t c) pid = rowHasId r pid := by
  unfold rowHasId
  rw [lookupCell_setNotes_other r o t c "ID" (by decide) (by decide) (by decide)]

theorem rowHasId_newNoteRow (pid o t c : String) :
    rowHasId (newNoteRow pid o t c) pid = true := by
  simp [rowHasId, newNoteRow, lookupCell]

end PatientApp

namespace PatientApp

/-- C5: saving the three note fields for an identifier and then loading
that identifier's notes, with no intervening write, returns exactly the
three saved fields. -/
theorem save_then_load_roundtrip (tbl : Table) (pid o t c : String) :
    load_nurse_inputs (save_nurse_inputs tbl pid o t c) pid =
      (Value.str o, Value.str t, Value.str c) := by
  unfold save_nurse_inputs
  by_cases hany : tbl.any (fun r => rowHasId r pid) = true
  · rw [if_pos hany]
    unfold load_nurse_inputs
    rw [List.find?_map]
    have hpf : ((fun r => rowHasId r pid) ∘
        (fun r => if rowHasId r pid then setNotes r o t c else r)) =
        (fun r => rowHasId r pid) := by
      funext r
      by_cases h : rowHasId r pid = true <;>
        simp [Function.comp, h, rowHasId_setNotes]
    rw [hpf]
    rcases List.any_eq_true.mp hany with ⟨r0, hr0mem, hr0⟩
    have hsome : (tbl.find? (fun r => rowHasId r pid)).isSome :=
      List.find?_isSome.mpr ⟨r0, hr0mem, hr0⟩
    rcases Option.isSome_iff_exists.mp hsome with ⟨r1, hr1⟩
    have hp1' := List.find?_some hr1
    have hp1 : rowHasId r1 pid = true := by simpa using hp1'
    rw [hr1]
    simp only [Option.map_some', hp1, if_pos]
    unfold noteField seriesCell
    rw [lookupCell_setNotes_objectives, lookupCell_setNotes_tasks,
      lookupCell_setNotes_comments]
    rfl
  · rw [if_neg hany]
    unfold load_nurse_inputs
    rw [List.find?_append]
    have hnone : tbl.find? (fun r => rowHasId r pid) = none := by
      rw [List.find?_eq_none]
      intro x hx hpx
      exact hany (List.any_eq_true.mpr ⟨x, hx, hpx⟩)
    rw [hnone]
    simp only [Option.none_or]
    have : List.find? (fun r => rowHasId r pid) [newNoteRow pid o t c] =
        some (newNoteRow pid o t c) := by
      simp [List.find?, rowHasId_newNoteRow]
    rw [this]
    simp [noteField, seriesCell, newNoteRow, lookupCell]

/-- C5 witness: a concrete round trip through an initially empty store. -/
theorem save_then_load_roundtrip_witness :
    load_nurse_inputs (save_nurse_inputs [] "P9" "obj" "tsk" "com") "P9" =
      (Value.str "obj", Value.str "tsk", Value.str "com") :=
  save_then_load_roundtrip [] "P9" "obj" "tsk" "com"

/-- C6: saving for an identifier absent from the store appends exactly
the one new row with the identifier and the three fields, growing the
table by one row and leaving every pre-existing row untouched; saving
for a present identifier keeps the row count and rewrites exactly the
three note fields of the rows bearing the identifier, every other row
and every other cell being preserved. -/
theorem save_notes_frame (tbl : Table) (pid o t c : String) :
    (tbl.any (fun r => rowHasId r pid) = false →
      save_nurse_inputs tbl pid o t c = tbl ++ [newNoteRow pid o t c] ∧
      (save_nurse_inputs tbl pid o t c).length = tbl.length + 1 ∧
      ∀ i : Nat, i < tbl.length → (save_nurse_inputs tbl pid o t c)[i]? = tbl[i]?) ∧
    (tbl.any (fun r => rowHasId r pid) = true →
      (save_nurse_inputs tbl pid o t c).length = tbl.length ∧
      ∀ i : Nat, ∀ r : Row, tbl[i]? = some r →
        (rowHasId r pid = false → (save_nurse_inputs tbl pid o t c)[i]? = some r) ∧
        (rowHasId r pid = true →
          (save_nurse_inputs tbl pid o t c)[i]? = some (setNotes r o t c))) ∧
    (∀ r : Row,
      lookupCell (setNotes r o t c) "objectives" = some (some (Value.str o)) ∧
      lookupCell (setNotes r o t c) "tasks" = some (some (Value.str t)) ∧
      lookupCell (setNotes r o t c) "comments" = some (some (Value.str c)) ∧
      ∀ l : String, l ≠ "objectives" → l ≠ "tasks" → l ≠ "comments" →
        lookupCell (setNotes r o t c) l = lookupCell r l) := by
  refine ⟨?_, ?_, ?_⟩
  · intro habs
    have hnot : ¬ tbl.any (fun r => rowHasId r pid) = true := by
      rw [habs]; exact Bool.false_ne_true
    unfold save_nurse_inputs
    rw [if_neg hnot]
    refine ⟨rfl, by simp, ?_⟩
    intro i hi
    exact List.getElem?_append_left hi
  · intro hany
    unfold save_nurse_inputs
    rw [if_pos hany]
    refine ⟨by simp, ?_⟩
    intro i r hir
    constructor
    · intro hnr
      rw [List.getElem?_map, hir]
      simp [hnr]
    · intro hr
      rw [List.getElem?_map, hir]
      simp [hr]
  · intro r
    exact ⟨lookupCell_setNotes_objectives r o t c,
      lookupCell_setNotes_tasks r o t c,
      lookupCell_setNotes_comments r o t c,
      fun l h1 h2 h3 => lookupCell_setNotes_other r o t c l h1 h2 h3⟩

/-- C6 witness: on a one-row store, saving an absent identifier appends
the single new row, and saving the present identifier rewrites the note
fields without touching the `ID` cell or the row count. -/
theorem save_notes_frame_witness :
    save_nurse_inputs [[("ID", some (Value.str "P1"))]] "P2" "o1" "t1" "c1" =
      [[("ID", some (Value.str "P1"))], newNoteRow "P2" "o1" "t1" "c1"] ∧
    (save_nurse_inputs [[("ID", some (Value.str "P1"))]] "P1" "o1" "t1" "c1").length = 1 :=
  ⟨((save_notes_frame [[("ID", some (Value.str "P1"))]] "P2" "o1" "t1" "c1").1
      (by decide)).1,
    ((save_notes_frame [[("ID", some (Value.str "P1"))]] "P1" "o1" "t1" "c1").2.1
      (by decide)).1⟩

end PatientApp

namespace PatientApp

theorem firstDigitRun_no_digit (l : List Char) (h : ∀ c ∈ l, c.isDigit = false) :
    firstDigitRun l = none := by
  induction l with
  | nil => rfl
  | cons c cs ih =>
    unfold firstDigitRun
    rw [if_neg (by simp [h c (List.mem_cons_self c cs)]),
      ih (fun x hx => h x (List.mem_cons_of_mem c hx))]

theorem takeWhile_digits (ds q : List Char) (hds : ∀ c ∈ ds, c.isDigit = true)
    (hq : ∀ c ∈ q.take 1, c.isDigit = false) :
    (ds ++ q).takeWhile Char.isDigit = ds := by
  induction ds with
  | nil =>
    simp only [List.nil_append]
    cases q with
    | nil => rfl
    | cons c q' =>
      have hc : c.isDigit = false := hq c (by simp)
      simp [List.takeWhile_cons_of_neg, hc]
  | cons d ds' ih =>
    have hd : d.isDigit = true := hds d (by simp)
    simp only [List.cons_append, List.takeWhile_cons_of_pos hd]
    rw [ih (fun c hc => hds c (by simp [hc]))]

theorem firstDigitRun_found (p ds q : List Char) (hp : ∀ c ∈ p, c.isDigit = false)
    (hne : ds ≠ []) (hds : ∀ c ∈ ds, c.isDigit = true)
    (hq : ∀ c ∈ q.take 1, c.isDigit = false) :
    firstDigitRun (p ++ ds ++ q) = some ds := by
  induction p with
  | nil =>
    cases ds with
    | nil => exact absurd rfl hne
    | cons d ds' =>
      have hd : d.isDigit = true := hds d (by simp)
      simp only [List.nil_append, List.cons_append]
      unfold firstDigitRun
      rw [if_pos hd, takeWhile_digits ds' q (fun c hc => hds c (by simp [hc])) hq]
  | cons c p' ih =>
    have hc : c.isDigit = false := hp c (by simp)
    simp only [List.cons_append]
    unfold firstDigitRun
    rw [if_neg (by simp [hc])]
    exact ih (fun x hx => hp x (by simp [hx]))

theorem idLE_total (a b : String) : idLE a b || idLE b a := by
  unfold idLE
  rcases le_total (extract_number a) (extract_number b) with h | h <;> simp [h]

theorem idLE_trans (a b c : String) : idLE a b → idLE b c → idLE a c := by
  unfold idLE
  intro h1 h2
  simp only [decide_eq_true_eq] at h1 h2 ⊢
  exact le_trans h1 h2

end PatientApp

namespace PatientApp

/-- C9: the patient sort key is the first maximal digit run of the
identifier parsed as an integer, `⊤` (+∞, sorting last) when the
identifier has no digit; and sorting by the key is total (any two keys
compare), produces a sorted permutation, and is stable (a sorted
sublist of the input survives as a sublist of the output). -/
theorem sort_key_spec :
    (∀ s : String, (∀ c ∈ s.data, c.isDigit = false) → extract_number s = ⊤) ∧
    (∀ (s : String) (p ds q : List Char), s.data = p ++ ds ++ q →
      (∀ c ∈ p, c.isDigit = false) → ds ≠ [] → (∀ c ∈ ds, c.isDigit = true) →
      (∀ c ∈ q.take 1, c.isDigit = false) →
      extract_number s = (natOfDigits ds : Nat)) ∧
    (∀ a b : String, idLE a b = true ∨ idLE b a = true) ∧
    (∀ l : List String, (sortPatients l).Perm l ∧
      (sortPatients l).Pairwise (fun a b => extract_number a ≤ extract_number b)) ∧
    (∀ l c : List String,
      c.Pairwise (fun a b => extract_number a ≤ extract_number b) →
      c.Sublist l → c.Sublist (sortPatients l)) := by
  refine ⟨?_, ?_, ?_, ?_, ?_⟩
  · intro s h
    unfold extract_number
    rw [firstDigitRun_no_digit s.data h]
  · intro s p ds q hsplit hp hne hds hq
    unfold extract_number
    rw [hsplit, firstDigitRun_found p ds q hp hne hds hq]
  · intro a b
    have h := idLE_total a b
    rcases Bool.or_eq_true_iff.mp h with h1 | h1
    · exact Or.inl h1
    · exact Or.inr h1
  · intro l
    refine ⟨List.mergeSort_perm l idLE, ?_⟩
    have h := List.sorted_mergeSort idLE_trans idLE_total l
    exact h.imp (fun hab => by simpa [idLE] using hab)
  · intro l c hc hsub
    exact List.sublist_mergeSort idLE_trans idLE_total
      (hc.imp (fun hab => by simpa [idLE] using hab)) hsub

/-- C9 witness: a digit-free identifier keys to `⊤`, `"P12"` keys to 12,
and sorting a concrete list produces a permutation of it. -/
theorem sort_key_spec_witness :
    extract_number "XYZ" = ⊤ ∧
    extract_number "P12" = ((12 : Nat) : WithTop Nat) ∧
    (sortPatients ["P12", "XYZ"]).Perm ["P12", "XYZ"] :=
  ⟨sort_key_spec.1 "XYZ" (by decide),
   sort_key_spec.2.1 "P12" ['P'] ['1', '2'] [] rfl (by decide) (by decide)
     (by decide) (by decide),
   (sort_key_spec.2.2.2.1 ["P12", "XYZ"]).1⟩

end PatientApp


namespace PatientApp

theorem dropWhile_digits (ds q : List Char) (hds : ∀ c ∈ ds, c.isDigit = true)
    (hq : ∀ c ∈ q.take 1, c.isDigit = false) :
    (ds ++ q).dropWhile Char.isDigit = q := by
  induction ds with
  | nil =>
    simp only [List.nil_append]
    cases q with
    | nil => rfl
    | cons c q' =>
      have hc : c.isDigit = false := hq c (by simp)
      simp [List.dropWhile_cons_of_neg, hc]
  | cons d ds' ih =>
    have hd : d.isDigit = true := hds d (by simp)
    simp only [List.cons_append, List.dropWhile_cons_of_pos hd]
    exact ih (fun c hc => hds c (by simp [hc]))

theorem underscore_head_not_digit :
    ∀ c ∈ (('_' :: l).take 1 : List Char), c.isDigit = false := by
  intro c hc
  simp at hc
  subst hc
  decide

theorem parse_underscore_inv (s : String) (n : Nat) (ph : String)
    (h : parse_madrs_underscore s = some (n, ph)) :
    ∃ ds phl,
      s.data = ['m', 'a', 'd', 'r', 's'] ++ '_' :: (ds ++ '_' :: phl) ∧
      (∀ c ∈ ds, c.isDigit = true) ∧ ds ≠ [] ∧
      (phl = ['b', 'l'] ∨ phl = ['f', 'u']) ∧
      n = natOfDigits ds ∧ ph = String.mk phl := by
  unfold parse_madrs_underscore at h
  by_cases htake : s.data.take 6 = ['m', 'a', 'd', 'r', 's', '_']
  · rw [if_pos htake] at h
    split at h
    · next c2 phl hdw =>
      split at h
      · next hcond =>
        obtain ⟨hc2, htw, hph⟩ := hcond
        subst hc2
        rw [Option.some.injEq, Prod.mk.injEq] at h
        obtain ⟨hn, hphs⟩ := h
        refine ⟨(s.data.drop 6).takeWhile Char.isDigit, phl, ?_, ?_, htw, hph,
          hn.symm, hphs.symm⟩
        · conv_lhs => rw [← List.take_append_drop 6 s.data]
          rw [htake]
          conv_lhs =>
            rw [← List.takeWhile_append_dropWhile Char.isDigit (s.data.drop 6)]
          rw [hdw]
          simp
        · intro c hc
          exact List.mem_takeWhile_imp hc
      · exact absurd h (by simp)
    · next hdw => exact absurd h (by simp)
  · rw [if_neg htake] at h
    exact absurd h (by simp)

end PatientApp

namespace PatientApp

theorem madrs_filter_of_decomp (s : String) (ds phl : List Char)
    (hdata : s.data = ['m', 'a', 'd', 'r', 's'] ++ '_' :: (ds ++ '_' :: phl))
    (hds : ∀ c ∈ ds, c.isDigit = true) (hne : ds ≠ [])
    (hph : phl = ['b', 'l'] ∨ phl = ['f', 'u']) :
    madrs_filter s = true := by
  have htake : s.data.take 5 = ['m', 'a', 'd', 'r', 's'] := by rw [hdata]; rfl
  have hdrop : s.data.drop 5 = '_' :: (ds ++ '_' :: phl) := by rw [hdata]; rfl
  have htw : (ds ++ '_' :: phl).takeWhile Char.isDigit = ds :=
    takeWhile_digits ds ('_' :: phl) hds underscore_head_not_digit
  have hdw : (ds ++ '_' :: phl).dropWhile Char.isDigit = '_' :: phl :=
    dropWhile_digits ds ('_' :: phl) hds underscore_head_not_digit
  unfold madrs_filter parse_madrs_col
  rw [htake, hdrop]
  simp [hdw, htw, hne, hph]

theorem extract_item_num_of_decomp (s : String) (ds phl : List Char)
    (hdata : s.data = ['m', 'a', 'd', 'r', 's'] ++ '_' :: (ds ++ '_' :: phl))
    (hds : ∀ c ∈ ds, c.isDigit = true) (hne : ds ≠ []) :
    extract_item_num s = some (natOfDigits ds) := by
  have htw : (ds ++ '_' :: phl).takeWhile Char.isDigit = ds :=
    takeWhile_digits ds ('_' :: phl) hds underscore_head_not_digit
  have hdw : (ds ++ '_' :: phl).dropWhile Char.isDigit = '_' :: phl :=
    dropWhile_digits ds ('_' :: phl) hds underscore_head_not_digit
  have hdata' : s.data = 'm' :: 'a' :: 'd' :: 'r' :: 's' :: '_' :: (ds ++ '_' :: phl) := by
    rw [hdata]; rfl
  have hmatch : matchItemAt ('m' :: 'a' :: 'd' :: 'r' :: 's' :: '_' :: (ds ++ '_' :: phl)) =
      some ds := by
    unfold matchItemAt
    simp [hdw, htw, hne]
  unfold extract_item_num
  rw [hdata']
  unfold extract_item_digits
  rw [hmatch]
  rfl

theorem temps_of_decomp (s : String) (ds phl : List Char)
    (hdata : s.data = ['m', 'a', 'd', 'r', 's'] ++ '_' :: (ds ++ '_' :: phl))
    (hph : phl = ['b', 'l'] ∨ phl = ['f', 'u']) :
    (extract_temps s).bind temps_label =
      some (if String.mk phl = "bl" then "Baseline" else "Jour 30") := by
  rcases hph with h | h <;> subst h
  · have hrev : s.data.reverse =
        'l' :: 'b' :: '_' :: (('m' :: 'a' :: 'd' :: 'r' :: 's' :: '_' :: ds).reverse) := by
      rw [hdata]
      rw [show (['m', 'a', 'd', 'r', 's'] ++ '_' :: (ds ++ '_' :: ['b', 'l'])) =
        ('m' :: 'a' :: 'd' :: 'r' :: 's' :: '_' :: ds) ++ ['_', 'b', 'l'] by simp]
      rw [List.reverse_append]
      rfl
    unfold extract_temps
    rw [hrev]
    rfl
  · have hrev : s.data.reverse =
        'u' :: 'f' :: '_' :: (('m' :: 'a' :: 'd' :: 'r' :: 's' :: '_' :: ds).reverse) := by
      rw [hdata]
      rw [show (['m', 'a', 'd', 'r', 's'] ++ '_' :: (ds ++ '_' :: ['f', 'u'])) =
        ('m' :: 'a' :: 'd' :: 'r' :: 's' :: '_' :: ds) ++ ['_', 'f', 'u'] by simp]
      rw [List.reverse_append]
      rfl
    unfold extract_temps
    rw [hrev]
    rfl

theorem madrs_filter_of_parse (s : String) (n : Nat) (ph : String)
    (h : parse_madrs_underscore s = some (n, ph)) : madrs_filter s = true := by
  obtain ⟨ds, phl, hdata, hds, hne, hph, _, _⟩ := parse_underscore_inv s n ph h
  exact madrs_filter_of_decomp s ds phl hdata hds hne hph

end PatientApp

namespace PatientApp

theorem parse_underscore_none_of_not_filter (s : String)
    (hf : madrs_filter s = false) : parse_madrs_underscore s = none := by
  rcases hp : parse_madrs_underscore s with _ | x
  · rfl
  · obtain ⟨n, ph⟩ := x
    have := madrs_filter_of_parse s n ph hp
    rw [hf] at this
    exact absurd this (by simp)

theorem madrs_pipeline_eq (r : Row)
    (h : ∀ p ∈ r, madrs_filter p.1 = true → (parse_madrs_underscore p.1).isSome) :
    ((r.filter (fun p => madrs_filter p.1)).filterMap
        (fun p => p.2.map (fun v => (p.1, v)))).all
      (fun p => (extract_item_num p.1).isSome) = true ∧
    ((r.filter (fun p => madrs_filter p.1)).filterMap
        (fun p => p.2.map (fun v => (p.1, v)))).filterMap madrs_triple =
      madrs_breakdown_spec r := by
  induction r with
  | nil => exact ⟨rfl, rfl⟩
  | cons p r' ih =>
    have ih' := ih (fun q hq hfq => h q (List.mem_cons_of_mem p hq) hfq)
    by_cases hf : madrs_filter p.1 = true
    · have hsome := h p (List.mem_cons_self p r') hf
      rcases Option.isSome_iff_exists.mp hsome with ⟨x, hparse⟩
      obtain ⟨n, ph⟩ := x
      obtain ⟨ds, phl, hdata, hds, hne, hph, hn, hphs⟩ :=
        parse_underscore_inv p.1 n ph hparse
      rw [List.filter_cons, if_pos (show (fun q : String × Cell => madrs_filter q.1) p = true from hf)]
      rcases hc : p.2 with _ | v
      · have hspec : madrs_breakdown_spec (p :: r') = madrs_breakdown_spec r' := by
          unfold madrs_breakdown_spec
          rw [List.filterMap_cons]
          rw [hparse, hc]
        rw [List.filterMap_cons]
        simp only [hc, Option.map_none']
        exact ⟨ih'.1, ih'.2.trans hspec.symm⟩
      · have hitem : extract_item_num p.1 = some n := by
          rw [hn]
          exact extract_item_num_of_decomp p.1 ds phl hdata hds hne
      
        have htemps : (extract_temps p.1).bind temps_label =
            some (if ph = "bl" then "Baseline" else "Jour 30") := by
          rw [hphs]
          exact temps_of_decomp p.1 ds phl hdata hph
        have htriple : madrs_triple (p.1, v) =
            (madrs_items_mapping n).map
              (fun lbl => ⟨lbl, some (if ph = "bl" then "Baseline" else "Jour 30"), v⟩) := by
          unfold madrs_triple
          rw [hitem, htemps]
        have hspec : madrs_breakdown_spec (p :: r') =
            ((madrs_items_mapping n).map
              (fun lbl =>
                (⟨lbl, some (if ph = "bl" then "Baseline" else "Jour 30"), v⟩ :
                  MadrsTriple))).toList ++ madrs_breakdown_spec r' := by
          unfold madrs_breakdown_spec
          rw [List.filterMap_cons, hparse, hc]
          rcases hm : madrs_items_mapping n with _ | lbl <;> simp [hm]
        rw [List.filterMap_cons]
        simp only [hc, Option.map_some']
        constructor
        · rw [List.all_cons, ih'.1, hitem]
          rfl
        · rw [List.filterMap_cons, htriple, hspec, ih'.2]
          rcases hm : madrs_items_mapping n with _ | lbl <;> simp [hm]
    · have hf' : madrs_filter p.1 = false := by
        rcases hb : madrs_filter p.1
        · rfl
        · exact absurd hb hf
      have hpn : parse_madrs_underscore p.1 = none :=
        parse_underscore_none_of_not_filter p.1 hf'
      rw [List.filter_cons,
        if_neg (show ¬ (fun q : String × Cell => madrs_filter q.1) p = true from by simp [hf'])]
      have hspec : madrs_breakdown_spec (p :: r') = madrs_breakdown_spec r' := by
        unfold madrs_breakdown_spec
        rw [List.filterMap_cons, hpn]
      exact ⟨ih'.1, ih'.2.trans hspec.symm⟩

end PatientApp

namespace PatientApp

/-- C8 counterexample: on the dot-separated column name `madrs.1.bl`
with score 2 — which the selection regex accepts — the breakdown does
not produce the (Tristesse Apparente, Baseline, 2) triple the claim
promises: the phase regex `_(bl|fu)$` and the item regex
`madrs[_.](\d+)_` both require underscores, so the `astype(int)`
conversion fails and the whole breakdown errors out. -/
theorem madrs_breakdown_dot_variant_fails :
    madrs_breakdown [("madrs.1.bl", some (Value.int 2))] = .error () ∧
    madrs_breakdown [("madrs.1.bl", some (Value.int 2))] ≠
      .ok [⟨"Tristesse Apparente", some "Baseline", Value.int 2⟩] :=
  ⟨rfl, fun hcon => Except.noConfusion hcon⟩

/-- C8 (amended): for rows all of whose regex-selected MADRS columns are
of the underscore form `madrs_{n}_{bl|fu}`, the breakdown succeeds and
reshapes exactly the selected non-missing cells into (item, phase,
score) triples — Baseline for `bl`, Day 30 for `fu`, canonical label per
item — dropping missing scores and items without a 1-10 label. -/
theorem madrs_breakdown_underscore_ok (r : Row)
    (h : ∀ p ∈ r, madrs_filter p.1 = true → (parse_madrs_underscore p.1).isSome) :
    madrs_breakdown r = .ok (madrs_breakdown_spec r) := by
  obtain ⟨hall, heq⟩ := madrs_pipeline_eq r h
  unfold madrs_breakdown
  by_cases hempty : (r.filter (fun p => madrs_filter p.1)).isEmpty = true
  · rw [if_pos hempty]
    have hnil : r.filter (fun p => madrs_filter p.1) = [] :=
      List.isEmpty_iff.mp hempty
    have hspec : madrs_breakdown_spec r = [] := by
      rw [← heq, hnil]
      rfl
    rw [hspec]
  · rw [if_neg hempty]
    have hany : ((r.filter (fun p => madrs_filter p.1)).filterMap
        (fun p => p.2.map (fun v => (p.1, v)))).any
        (fun p => (extract_item_num p.1).isNone) = false := by
      rw [List.any_eq_false]
      intro x hx hcon
      have hs := List.all_eq_true.mp hall x hx
      rw [Option.isNone_iff_eq_none] at hcon
      rw [hcon] at hs
      exact absurd hs (by simp)
    rw [if_neg (by simp [hany]), heq]

/-- C8 witness: a concrete underscore-named row — one present baseline
item 1, one missing follow-up item 2, one unmapped item 11, one
non-MADRS column — yields exactly the one claimed triple. -/
theorem madrs_breakdown_underscore_ok_witness :
    madrs_breakdown [("madrs_1_bl", some (Value.int 2)), ("madrs_2_fu", none),
      ("madrs_11_bl", some (Value.int 9)), ("age", some (Value.int 45))] =
      .ok [⟨"Tristesse Apparente", some "Baseline", Value.int 2⟩] :=
  (madrs_breakdown_underscore_ok _ (by decide)).trans (by rfl)

end PatientApp
